import Mathlib

/-!
Verification of the plugin dataflow-graph runtime (`local_llm/plugin.py`)
and the `ChatQuery` stage (`local_llm/plugins/chat_query.py`).

The Python classes are shallowly embedded:

* A node's mutable attributes (`relay`, `threaded`, the optional `queue`
  attribute) become the structure `PluginState`.  In Python, `__init__`
  creates `self.queue` only when `threaded=True`; this is modelled by an
  `Option (List V)` field, `none` meaning "the attribute does not exist"
  (dereferencing it raises `AttributeError`).
* Methods that call `input` on downstream plugins are modelled as emitting
  a trace of `Event`s: `Event.delivery t v` records one call
  `outputs[t].input(v)`, and `Event.procCall x` records one invocation of
  `process(x)`.  A node's `outputs` list is a list of target identifiers.
* Python exceptions become `Except`; an error carries both the exception
  and the node state at the moment of the raise.
* The connection graph mutated by `Plugin.add` is modelled by `Graph`, a
  list of per-node `outputs` lists indexed by node id; wrapping a callable
  in a `Callback` plugin allocates a fresh node with an empty outputs list.
* `Plugin.find` walks only `outputs` edges of an acyclic graph, so it is
  modelled on rose trees (`PNode`): a DAG unfolds to such a tree and the
  search, which keeps no visited set, behaves identically on the unfolding.
-/

/-- Python exception classes raised by the embedded code. -/
inductive PluginError where
  | typeError (msg : String)
  | valueError (msg : String)
  | notImplementedError (msg : String)
  | indexError
  | attributeError (attr : String)
deriving Repr, DecidableEq

/-- Observable actions of a plugin: a `process` invocation on an item, or a
delivery `outputs[target].input(value)` to a downstream plugin. -/
inductive Event (V : Type) where
  | procCall (item : V)
  | delivery (target : Nat) (value : V)
deriving Repr, DecidableEq

/-- The item processed by a `procCall` event, if any. -/
def Event.procItem {V : Type} : Event V → Option V
  | Event.procCall x => some x
  | Event.delivery _ _ => none

/-- `Plugin.output(self, output, channel=-1)`: no-op on `None`; for
`channel >= 0` a single delivery to `outputs[channel]` (an out-of-range
index raises `IndexError`); otherwise one delivery to every entry of
`outputs`, in list order. -/
def Plugin.output {V : Type} (outs : List Nat) (output : Option V)
    (channel : Int) : Except PluginError (List (Event V)) :=
  match output with
  | none => Except.ok []
  | some v =>
    if 0 ≤ channel then
      match outs[channel.toNat]? with
      | some t => Except.ok [Event.delivery t v]
      | none => Except.error PluginError.indexError
    else
      Except.ok (outs.map fun t => Event.delivery t v)

/-- `Plugin.update(self)`: the `while not self.queue.empty()` drain loop,
acting on the queue contents `q`.  Each iteration dequeues the head item,
calls `process`, emits the result via `output` (broadcast channel `-1`),
and, if `relay` is set, re-emits the original item via `output`. -/
def Plugin.drain {V : Type} (relay : Bool) (process : V → Option V)
    (outs : List Nat) : List V → Except PluginError (List (Event V))
  | [] => Except.ok []
  | x :: rest => do
    let d1 ← Plugin.output outs (process x) (-1)
    let d2 ← if relay then Plugin.output outs (some x) (-1) else pure []
    let drest ← Plugin.drain relay process outs rest
    pure (Event.procCall x :: (d1 ++ (d2 ++ drest)))

/-- Broadcast deliveries of an optional value to every output, in order:
the trace produced by `Plugin.output` at channel `-1`. -/
def bcast {V : Type} (outs : List Nat) : Option V → List (Event V)
  | none => []
  | some v => outs.map fun t => Event.delivery t v

theorem Plugin.output_neg_one {V : Type} (outs : List Nat) (v : Option V) :
    Plugin.output outs v (-1) = Except.ok (bcast outs v) := by
  cases v <;> simp [Plugin.output, bcast]

theorem Plugin.drain_eq {V : Type} (relay : Bool) (process : V → Option V)
    (outs : List Nat) (q : List V) :
    Plugin.drain relay process outs q =
      Except.ok (q.flatMap fun x =>
        Event.procCall x ::
          (bcast outs (process x) ++
            if relay then bcast outs (some x) else [])) := by
  induction q with
  | nil => rfl
  | cons x rest ih =>
    cases relay <;>
      simp [Plugin.drain, Plugin.output_neg_one, ih, List.flatMap_cons, bind,
        Except.bind, pure, Except.pure]

/-- The per-node mutable attributes of a `Plugin` instance.  `queue` is
`none` when the `queue` attribute was never created (Python `__init__`
only creates it when `threaded=True`); reading it then raises
`AttributeError`.  `event` models the wake `threading.Event` flag. -/
structure PluginState (V : Type) where
  relay : Bool
  threaded : Bool
  queue : Option (List V)
  event : Option Bool
deriving Repr, DecidableEq

/-- `Plugin.__init__(relay, threaded)`: stores the flags and creates the
queue and wake event only in threaded mode. -/
def Plugin.init {V : Type} (relay threaded : Bool) : PluginState V :=
  { relay := relay
    threaded := threaded
    queue := if threaded then some [] else none
    event := if threaded then some false else none }

/-- `Plugin.update(self)` on the node state: drains `self.queue`
completely.  A node whose `queue` attribute does not exist raises
`AttributeError` on the very first `self.queue.empty()` check. -/
def Plugin.update {V : Type} (process : V → Option V) (outs : List Nat)
    (st : PluginState V) :
    Except (PluginError × PluginState V) (PluginState V × List (Event V)) :=
  match st.queue with
  | none => Except.error (PluginError.attributeError ("queue"), st)
  | some q =>
    match Plugin.drain st.relay process outs q with
    | Except.ok evs => Except.ok ({ st with queue := some [] }, evs)
    | Except.error e => Except.error (e, st)

/-- `Plugin.input(self, input, channel=0)`: if threaded, put the item on
`self.queue` and set the wake event; otherwise call `self.update()`.
The `channel` argument is never read. -/
def Plugin.input {V : Type} (process : V → Option V) (outs : List Nat)
    (st : PluginState V) (input : V) (channel : Int) :
    Except (PluginError × PluginState V) (PluginState V × List (Event V)) :=
  if st.threaded then
    match st.queue with
    | none => Except.error (PluginError.attributeError ("queue"), st)
    | some q =>
      Except.ok ({ st with queue := some (q ++ [input]), event := some true }, [])
  else
    Plugin.update process outs st

/-- `Plugin.__call__(self, input, channel=0)`: alias for `input`. -/
def Plugin.call {V : Type} (process : V → Option V) (outs : List Nat)
    (st : PluginState V) (input : V) (channel : Int) :
    Except (PluginError × PluginState V) (PluginState V × List (Event V)) :=
  Plugin.input process outs st input channel

/-- The connection graph built by `Plugin.add`: entry `i` is node `i`'s
`outputs` list (a list of downstream node ids). -/
structure Graph where
  outputs : List (List Nat)
deriving Repr, DecidableEq

/-- `self.outputs.append(t)` for node `i`. -/
def Graph.appendOutput (g : Graph) (i t : Nat) : Graph :=
  ⟨g.outputs.set i ((g.outputs.getD i []) ++ [t])⟩

/-- The argument passed to `Plugin.add`: an existing `Plugin` instance, a
bare callable, or a value of any other type (carrying its type name). -/
inductive AddArg where
  | plugin (id : Nat)
  | callable (f : Nat)
  | other (tyName : String)
deriving Repr, DecidableEq

/-- Whether the argument is neither a `Plugin` nor callable. -/
def AddArg.isOther : AddArg → Bool
  | AddArg.other _ => true
  | _ => false

/-- Message of the `TypeError` raised by `Plugin.add` for an argument that
is neither a `Plugin` nor callable; it names the offending type. -/
def addTypeErrorMsg (tyName : String) : String :=
  "add() expects either a Plugin instance or a callable function (was "
    ++ tyName ++ ")"

/-- Message of the `ValueError` raised by `Plugin.add` for an unrecognized
mode. -/
def addModeErrorMsg : String :=
  "mode should either be input or output"

/-- `Plugin.add(self, plugin, mode='output')`.  A non-`Plugin`,
non-callable argument raises `TypeError`; a callable is wrapped in a
fresh `Callback` plugin (a new node with an empty outputs list);
`mode='output'` appends the target to `self`'s outputs, `mode='input'`
appends `self` to the target's outputs, any other mode raises
`ValueError`.  On success returns the updated graph and `self` (the
method returns `self` for chaining); on an exception returns the graph
as it stood at the raise. -/
def Plugin.add (g : Graph) (self : Nat) (plugin : AddArg) (mode : String) :
    Except (PluginError × Graph) (Graph × Nat) :=
  match plugin with
  | AddArg.other tyName =>
    Except.error (PluginError.typeError (addTypeErrorMsg tyName), g)
  | AddArg.plugin pid =>
    if mode = "output" then Except.ok (g.appendOutput self pid, self)
    else if mode = "input" then Except.ok (g.appendOutput pid self, self)
    else Except.error (PluginError.valueError addModeErrorMsg, g)
  | AddArg.callable _ =>
    let g1 : Graph := ⟨g.outputs ++ [[]]⟩
    let pid := g.outputs.length
    if mode = "output" then Except.ok (g1.appendOutput self pid, self)
    else if mode = "input" then Except.ok (g1.appendOutput pid self, self)
    else Except.error (PluginError.valueError addModeErrorMsg, g1)

/-- A plugin node together with the plugins reachable over its `outputs`
edges, as a rose tree: `tag` identifies the node's Python class (for
`isinstance` tests) and `outputs` is its ordered list of output edges.
An acyclic object graph unfolds to such a tree; `Plugin.find` keeps no
visited set, so it behaves identically on the unfolding. -/
inductive PNode where
  | mk (tag : Nat) (outputs : List PNode)
deriving Repr

/-- The class tag of a node. -/
def PNode.tag : PNode → Nat
  | PNode.mk t _ => t

/-- The output edges of a node. -/
def PNode.outputs : PNode → List PNode
  | PNode.mk _ outs => outs

mutual

/-- `Plugin.find(self, type)`: return `self` if it is an instance of the
type, else scan the output edges in order. -/
def PNode.find (ty : Nat → Bool) : PNode → Option PNode
  | PNode.mk t outs =>
    if ty t then some (PNode.mk t outs)
    else PNode.findLoop ty outs

/-- The `for output in self.outputs` loop of `Plugin.find`: check each
output, recurse into its subtree, short-circuit on the first match. -/
def PNode.findLoop (ty : Nat → Bool) : List PNode → Option PNode
  | [] => none
  | o :: rest =>
    if ty o.tag then some o
    else
      match PNode.find ty o with
      | some p => some p
      | none => PNode.findLoop ty rest

end

mutual

/-- Depth-first preorder of the output graph: the node itself first, then
the subtrees of its output edges, in list order. -/
def PNode.preorder : PNode → List PNode
  | PNode.mk t outs => PNode.mk t outs :: PNode.preorderList outs

/-- Concatenated preorders of a list of subtrees. -/
def PNode.preorderList : List PNode → List PNode
  | [] => []
  | o :: rest => PNode.preorder o ++ PNode.preorderList rest

end

/-- One entry of a `ChatHistory`: a role (`user` / `bot`) and its text.
Dict-typed message payloads are rendered to an opaque string, which is
all the runtime claims need of them. -/
structure ChatMessage where
  role : String
  text : String
deriving Repr, DecidableEq

/-- Modelled from the spec: the conversation-state collaborator
(`ChatHistory`, not under `src/`).  It exposes `append(role, content)`
and mutable text / KV-cache fields; entries accumulate in order. -/
structure ChatHistoryState where
  entries : List ChatMessage
  kv_cache : Nat
deriving Repr, DecidableEq

/-- Modelled from the spec: the streaming result of the model backend's
`generate` (`LocalLM`, not under `src/`): a lazy token sequence carrying
the final text and the updated cache state. -/
structure GenStream where
  tokens : List String
  output_text : String
  kv_cache : Nat
deriving Repr, DecidableEq

/-- The runtime type of the `input` argument of `ChatQuery.process`: a
string prompt, a chat-entry dict (payload rendered to a string), a
`ChatHistory`, or a value of any other type (carrying its type name). -/
inductive ChatInput where
  | str (s : String)
  | dict (d : String)
  | chatHistory (h : ChatHistoryState)
  | other (tyName : String)
deriving Repr, DecidableEq

/-- The user-message text appended for a `str` or `dict` input. -/
def ChatInput.msgText : ChatInput → String
  | ChatInput.str s => s
  | ChatInput.dict d => d
  | ChatInput.chatHistory _ => ""
  | ChatInput.other _ => ""

/-- Message of the `TypeError` raised by `ChatQuery.process` on an input
that is neither a string, a dict, nor a `ChatHistory`. -/
def chatTypeErrorMsg (tyName : String) : String :=
  "LLMQuery plugin expects inputs of type str, dict, or ChatHistory (was "
    ++ tyName ++ ")"

/-- `ChatQuery.process(self, input)`.  A `str` or `dict` input is appended
to `self.chat_history` as a user message; a `ChatHistory` input is used
directly; anything else raises `TypeError` before any state change.  The
model backend is abstracted by `embed_chat` (embedding of a history) and
`generate` (embedding and KV cache to a token stream), per the spec's
collaborator interfaces.  For a non-`ChatHistory` input the reply is
appended as a bot entry, each token is emitted via `self.output` (a
broadcast to `outs`), the final text and KV cache are stored, and the
method returns `None`; for a `ChatHistory` input the stream itself is
returned and `self.chat_history` is untouched.  An error carries the
`chat_history` state at the raise. -/
def ChatQuery.process (embed_chat : ChatHistoryState → Nat × Nat)
    (generate : Nat → Nat → GenStream) (outs : List Nat)
    (st : ChatHistoryState) (input : ChatInput) :
    Except (PluginError × ChatHistoryState)
      (ChatHistoryState × List (Event String) × Option GenStream) :=
  match input with
  | ChatInput.str s =>
    let st1 : ChatHistoryState :=
      { st with entries := st.entries ++ [⟨"user", s⟩] }
    let embedding := (embed_chat st1).1
    let out := generate embedding st1.kv_cache
    let st2 : ChatHistoryState :=
      { entries := st1.entries ++ [⟨"bot", out.output_text⟩]
        kv_cache := out.kv_cache }
    Except.ok (st2, out.tokens.flatMap (bcast outs ∘ some), none)
  | ChatInput.dict d =>
    let st1 : ChatHistoryState :=
      { st with entries := st.entries ++ [⟨"user", d⟩] }
    let embedding := (embed_chat st1).1
    let out := generate embedding st1.kv_cache
    let st2 : ChatHistoryState :=
      { entries := st1.entries ++ [⟨"bot", out.output_text⟩]
        kv_cache := out.kv_cache }
    Except.ok (st2, out.tokens.flatMap (bcast outs ∘ some), none)
  | ChatInput.chatHistory h =>
    let embedding := (embed_chat h).1
    let out := generate embedding h.kv_cache
    Except.ok (st, [], some out)
  | ChatInput.other tyName =>
    Except.error (PluginError.typeError (chatTypeErrorMsg tyName), st)

theorem filterMap_procItem_bcast {V : Type} (outs : List Nat) (v : Option V) :
    (bcast outs v).filterMap Event.procItem = [] := by
  cases v with
  | none => rfl
  | some w =>
    simp only [bcast, List.filterMap_map]
    have h : (Event.procItem ∘ fun t => Event.delivery t w) = fun _ => none := by
      funext t; rfl
    simp [h]

/-- C1: a plugin constructed with `threaded=False` has no `queue`
attribute, so `input` (whose non-threaded branch calls `update`, which
immediately reads `self.queue`) raises `AttributeError`; the item is
never enqueued and never processed (the trace is empty), contradicting
the claim that `input` runs the full process/output/relay sequence for
the item before returning. -/
theorem Plugin.nonthreaded_input_attribute_error {V : Type} (relay : Bool)
    (process : V → Option V) (outs : List Nat) (item : V) (channel : Int) :
    Plugin.input process outs (Plugin.init relay false) item channel =
      Except.error (PluginError.attributeError ("queue"),
        Plugin.init relay false) := by
  simp [Plugin.input, Plugin.init, Plugin.update]

/-- C9: `input` never reads its `channel` argument, so any two channel
values produce identical behavior, and `__call__` is a plain alias for
`input`. -/
theorem Plugin.input_channel_agnostic {V : Type} (process : V → Option V)
    (outs : List Nat) (st : PluginState V) (item : V) (c1 c2 : Int) :
    Plugin.input process outs st item c1 = Plugin.input process outs st item c2 ∧
    Plugin.call process outs st item c1 = Plugin.input process outs st item c1 :=
  ⟨rfl, rfl⟩

/-- C3: broadcasting a non-`None` value on channel `-1` makes exactly one
`input` call on each entry of `outputs`, in list order, each with the
identical value; a target listed twice receives two deliveries. -/
theorem Plugin.output_broadcast_fanout {V : Type} [DecidableEq V]
    (outs : List Nat) (v : V) :
    Plugin.output outs (some v) (-1) =
        Except.ok (outs.map fun t => Event.delivery t v) ∧
    (outs.map fun t => Event.delivery t v).length = outs.length ∧
    ∀ t : Nat, (outs.map fun u => Event.delivery u v).count (Event.delivery t v) =
      outs.count t := by
  refine ⟨?_, by simp, fun t => ?_⟩
  · simpa [bcast] using Plugin.output_neg_one outs (some v)
  · exact List.count_map_of_injective outs (fun u => Event.delivery u v)
      (fun a b h => by cases h; rfl) t

/-- C6: for `channel >= 0`, a non-`None` value is delivered to
`outputs[channel]` only, and an index at or beyond the length of
`outputs` raises `IndexError`. -/
theorem Plugin.output_channel_selects_single {V : Type} (outs : List Nat)
    (v : V) (channel : Int) (h : 0 ≤ channel) :
    (∀ t, outs[channel.toNat]? = some t →
      Plugin.output outs (some v) channel = Except.ok [Event.delivery t v]) ∧
    (outs.length ≤ channel.toNat →
      Plugin.output outs (some v) channel = Except.error PluginError.indexError) := by
  constructor
  · intro t ht
    simp [Plugin.output, h, ht]
  · intro hl
    have hn : outs[channel.toNat]? = none := List.getElem?_eq_none hl
    simp [Plugin.output, h, hn]

theorem Plugin.output_channel_selects_single_witness :
    Plugin.output [7] (some (3 : Nat)) 0 = Except.ok [Event.delivery 7 3] ∧
    Plugin.output [7] (some (3 : Nat)) 2 = Except.error PluginError.indexError :=
  ⟨(Plugin.output_channel_selects_single [7] 3 0 (by decide)).1 7 rfl,
   (Plugin.output_channel_selects_single [7] 3 2 (by decide)).2 (by decide)⟩

/-- C7: `output(None, channel)` is a no-op — it returns without a single
`input` call and without touching any state, for every channel value;
consequently an item whose `process` result is `None` produces no
delivery of that result (its drain step emits only the `process` call
itself, plus — only when relay is set — the relay re-emission of the raw
item). -/
theorem Plugin.output_none_noop {V : Type} (outs : List Nat) (channel : Int)
    (process : V → Option V) (x : V) :
    Plugin.output outs (none : Option V) channel = Except.ok [] ∧
    (process x = none → ∀ relay : Bool,
      Plugin.drain relay process outs [x] =
        Except.ok (Event.procCall x ::
          if relay then outs.map fun t => Event.delivery t x else [])) := by
  constructor
  · rfl
  · intro hp relay
    rw [Plugin.drain_eq]
    cases relay <;> simp [hp, bcast]

theorem Plugin.output_none_noop_witness :
    Plugin.output [4, 5] (none : Option Nat) (-1) = Except.ok [] ∧
    Plugin.drain false (fun _ => (none : Option Nat)) [4, 5] [9] =
      Except.ok [Event.procCall 9] :=
  ⟨(Plugin.output_none_noop [4, 5] (-1) (fun _ => (none : Option Nat)) 9).1,
   (Plugin.output_none_noop [4, 5] (-1) (fun _ => (none : Option Nat)) 9).2 rfl false⟩

/-- C2: `update` on a queue holding `q` drains it completely and, for each
item `x` of `q` in exactly the enqueue (FIFO) order, first invokes
`process x`, then emits the `process` result to all outputs, then — if
and only if `relay` is set — re-emits the original item `x` unchanged;
the `filterMap` conjunct extracts the sequence of `process` invocations
and shows it equals the enqueue order. -/
theorem Plugin.update_fifo_and_output_then_relay {V : Type}
    (process : V → Option V) (outs : List Nat) (r thr : Bool)
    (ev : Option Bool) (q : List V) :
    Plugin.update process outs ⟨r, thr, some q, ev⟩ =
      Except.ok (⟨r, thr, some [], ev⟩,
        q.flatMap fun x =>
          Event.procCall x ::
            (bcast outs (process x) ++
              if r then bcast outs (some x) else [])) ∧
    (q.flatMap fun x =>
        Event.procCall x ::
          (bcast outs (process x) ++
            if r then bcast outs (some x) else [])).filterMap Event.procItem = q := by
  constructor
  · simp [Plugin.update, Plugin.drain_eq]
  · induction q with
    | nil => rfl
    | cons x rest ih =>
      have hbr : (if r then bcast outs (some x) else []).filterMap
          Event.procItem = [] := by
        cases r <;> simp [filterMap_procItem_bcast]
      simp [List.flatMap_cons, List.filterMap_append, filterMap_procItem_bcast,
        hbr, Event.procItem, ih]

/-- C5: `add` fails exactly when the argument is neither a `Plugin` nor
callable (then with a `TypeError` naming the offending type, raised
before anything else) or when the mode is neither `output` nor `input`
(then with a `ValueError`); in every failure case the `outputs` list of
every pre-existing node is left unchanged. -/
theorem Plugin.add_invalid_arguments_error (g : Graph) (self : Nat)
    (plugin : AddArg) (mode : String) :
    ((Plugin.add g self plugin mode).isOk ↔
        plugin.isOther = false ∧ (mode = "output" ∨ mode = "input")) ∧
    (∀ tyName, plugin = AddArg.other tyName →
        Plugin.add g self plugin mode =
          Except.error (PluginError.typeError (addTypeErrorMsg tyName), g)) ∧
    (∀ e g2, Plugin.add g self plugin mode = Except.error (e, g2) →
        ∀ i, i < g.outputs.length → g2.outputs[i]? = g.outputs[i]?) := by
  cases plugin with
  | other tyName =>
    refine ⟨by simp [Plugin.add, AddArg.isOther, Except.isOk, Except.toBool], ?_, ?_⟩
    · intro ty hty
      cases hty
      rfl
    · intro e g2 he i hi
      simp only [Plugin.add] at he
      cases he
      rfl
  | plugin pid =>
    by_cases ho : mode = "output"
    · subst ho
      refine ⟨by simp [Plugin.add, AddArg.isOther, Except.isOk, Except.toBool], ?_, ?_⟩
      · intro ty hty; cases hty
      · intro e g2 he
        simp [Plugin.add] at he
    · by_cases hi : mode = "input"
      · subst hi
        refine ⟨by simp [Plugin.add, AddArg.isOther, Except.isOk, Except.toBool, ho], ?_, ?_⟩
        · intro ty hty; cases hty
        · intro e g2 he
          simp [Plugin.add, ho] at he
      · refine ⟨by simp [Plugin.add, AddArg.isOther, Except.isOk, Except.toBool, ho, hi], ?_, ?_⟩
        · intro ty hty; cases hty
        · intro e g2 he j hj
          simp only [Plugin.add, if_neg ho, if_neg hi] at he
          cases he
          rfl
  | callable f =>
    by_cases ho : mode = "output"
    · subst ho
      refine ⟨by simp [Plugin.add, AddArg.isOther, Except.isOk, Except.toBool], ?_, ?_⟩
      · intro ty hty; cases hty
      · intro e g2 he
        simp [Plugin.add] at he
    · by_cases hi : mode = "input"
      · subst hi
        refine ⟨by simp [Plugin.add, AddArg.isOther, Except.isOk, Except.toBool, ho], ?_, ?_⟩
        · intro ty hty; cases hty
        · intro e g2 he
          simp [Plugin.add, ho] at he
      · refine ⟨by simp [Plugin.add, AddArg.isOther, Except.isOk, Except.toBool, ho, hi], ?_, ?_⟩
        · intro ty hty; cases hty
        · intro e g2 he j hj
          simp only [Plugin.add, if_neg ho, if_neg hi] at he
          cases he
          exact List.getElem?_append_left hj

theorem Plugin.add_invalid_arguments_error_witness :
    Plugin.add ⟨[[], []]⟩ 0 (AddArg.other ("int")) "output" =
      Except.error (PluginError.typeError (addTypeErrorMsg ("int")), ⟨[[], []]⟩) ∧
    (Plugin.add ⟨[[], []]⟩ 0 (AddArg.plugin 1) "sideways").isOk = false :=
  ⟨(Plugin.add_invalid_arguments_error ⟨[[], []]⟩ 0 (AddArg.other ("int"))
      "output").2.1 ("int") rfl,
   by
    have h := (Plugin.add_invalid_arguments_error ⟨[[], []]⟩ 0 (AddArg.plugin 1)
      "sideways").1
    by_contra hne
    have hk : (Plugin.add ⟨[[], []]⟩ 0 (AddArg.plugin 1) "sideways").isOk = true := by
      cases hb : (Plugin.add ⟨[[], []]⟩ 0 (AddArg.plugin 1) "sideways").isOk
      · exact absurd hb hne
      · rfl
    rcases (h.mp hk).2 with hm | hm <;> simp at hm⟩

/-- C8: `add` with mode `output` appends the target (or, for a bare
callable, its freshly allocated `Callback` wrapper node) to `self`'s
`outputs`; mode `input` appends `self` to the target's `outputs` (wiring
target to `self`); appending to one node's list never changes any other
node's list; both success cases return `self` for chaining. -/
theorem Plugin.add_connects_edges (g : Graph) (self pid f : Nat) :
    Plugin.add g self (AddArg.plugin pid) "output" =
      Except.ok (g.appendOutput self pid, self) ∧
    Plugin.add g self (AddArg.plugin pid) "input" =
      Except.ok (g.appendOutput pid self, self) ∧
    Plugin.add g self (AddArg.callable f) "output" =
      Except.ok ((Graph.mk (g.outputs ++ [[]])).appendOutput self
        g.outputs.length, self) ∧
    Plugin.add g self (AddArg.callable f) "input" =
      Except.ok ((Graph.mk (g.outputs ++ [[]])).appendOutput
        g.outputs.length self, self) ∧
    (∀ j t i, i ≠ j → (g.appendOutput j t).outputs[i]? = g.outputs[i]?) := by
  refine ⟨rfl, rfl, rfl, rfl, fun j t i hij => ?_⟩
  simp only [Graph.appendOutput]
  exact List.getElem?_set_ne (Ne.symm hij)

theorem Plugin.add_connects_edges_witness :
    Plugin.add ⟨[[], []]⟩ 0 (AddArg.plugin 1) "output" =
      Except.ok (⟨[[1], []]⟩, 0) ∧
    (Graph.appendOutput ⟨[[], []]⟩ 0 1).outputs[1]? = some [] :=
  ⟨by
    have h := (Plugin.add_connects_edges ⟨[[], []]⟩ 0 1 0).1
    simpa [Graph.appendOutput] using h,
   by
    have h := (Plugin.add_connects_edges ⟨[[], []]⟩ 0 1 0).2.2.2.2 0 1 1
      (by decide)
    simpa using h⟩

mutual

theorem PNode.find_eq_preorder (ty : Nat → Bool) (n : PNode) :
    PNode.find ty n = (PNode.preorder n).find? fun p => ty p.tag := by
  cases n with
  | mk t outs =>
    by_cases h : ty t
    · simp [PNode.find, PNode.preorder, List.find?, PNode.tag, h]
    · simp [PNode.find, PNode.preorder, List.find?, PNode.tag, h,
        PNode.findLoop_eq_preorderList ty outs]

theorem PNode.findLoop_eq_preorderList (ty : Nat → Bool) (l : List PNode) :
    PNode.findLoop ty l = (PNode.preorderList l).find? fun p => ty p.tag := by
  cases l with
  | nil => rfl
  | cons o rest =>
    cases o with
    | mk t2 outs2 =>
      by_cases h2 : ty t2
      · simp [PNode.findLoop, PNode.preorderList, PNode.preorder, PNode.tag,
          List.find?, h2]
      · have hfind : PNode.find ty (PNode.mk t2 outs2) =
            (PNode.preorderList outs2).find? fun p => ty p.tag := by
          simp [PNode.find, h2, PNode.findLoop_eq_preorderList ty outs2]
        have hrest := PNode.findLoop_eq_preorderList ty rest
        have hstep : PNode.findLoop ty (PNode.mk t2 outs2 :: rest) =
            match PNode.find ty (PNode.mk t2 outs2) with
            | some p => some p
            | none => PNode.findLoop ty rest := by
          simp [PNode.findLoop, PNode.tag, h2]
        have hpre : PNode.preorderList (PNode.mk t2 outs2 :: rest) =
            (PNode.mk t2 outs2 :: PNode.preorderList outs2) ++
              PNode.preorderList rest := by
          simp [PNode.preorderList, PNode.preorder]
        rw [hstep, hfind, hrest, hpre, List.find?_append,
          List.find?_cons_of_neg]
        · cases hc : (PNode.preorderList outs2).find? fun p => ty p.tag <;>
            simp [hc, Option.or]
        · simpa [PNode.tag] using h2

end

/-- C4: on an acyclic output graph (its tree unfolding), `find` returns
exactly the first type-matching node of the depth-first preorder that
starts at the receiver and recurses into each output edge in list order
(so the receiver is checked first and the search short-circuits); it
returns `none` precisely when no reachable-via-outputs node matches; and
any returned node lies in that output-edge preorder, so nodes reachable
only via input (upstream) edges — which are outside the output tree —
are never matched. -/
theorem PNode.find_dfs_first_match (ty : Nat → Bool) (n : PNode) :
    PNode.find ty n = (PNode.preorder n).find? (fun p => ty p.tag) ∧
    (PNode.find ty n = none ↔ ∀ p ∈ PNode.preorder n, ty p.tag = false) ∧
    (∀ p, PNode.find ty n = some p →
      p ∈ PNode.preorder n ∧ ty p.tag = true) := by
  refine ⟨PNode.find_eq_preorder ty n, ?_, ?_⟩
  · rw [PNode.find_eq_preorder, List.find?_eq_none]
    simp
  · intro p hp
    rw [PNode.find_eq_preorder ty n] at hp
    exact ⟨List.mem_of_find?_eq_some hp, by simpa using List.find?_some hp⟩

theorem PNode.find_dfs_first_match_witness :
    (PNode.mk 2 [] ∈ PNode.preorder (PNode.mk 0 [PNode.mk 1 [PNode.mk 2 []]]) ∧
      (PNode.mk 2 []).tag == 2) ∧
    PNode.find (fun t => t == 7) (PNode.mk 0 [PNode.mk 1 [PNode.mk 2 []]]) = none :=
  ⟨(PNode.find_dfs_first_match (fun t => t == 2)
      (PNode.mk 0 [PNode.mk 1 [PNode.mk 2 []]])).2.2 (PNode.mk 2 []) rfl,
   (PNode.find_dfs_first_match (fun t => t == 7)
      (PNode.mk 0 [PNode.mk 1 [PNode.mk 2 []]])).2.1.mpr (by
        intro p hp
        simp only [PNode.preorder, PNode.preorderList, List.cons_append,
          List.nil_append, List.mem_cons, List.not_mem_nil, or_false] at hp
        rcases hp with h | h | h <;> subst h <;> rfl)⟩

/-- C10: `ChatQuery.process` raises `TypeError` exactly when the input is
neither a string, a dict, nor a `ChatHistory`; in that case the error
names the offending type and the `chat_history` state is returned
untouched, since the type dispatch happens before any append or
generation. -/
theorem ChatQuery.process_type_error_exactly
    (embed_chat : ChatHistoryState → Nat × Nat)
    (generate : Nat → Nat → GenStream) (outs : List Nat)
    (st : ChatHistoryState) (input : ChatInput) :
    ((∃ e st2, ChatQuery.process embed_chat generate outs st input =
        Except.error (e, st2)) ↔ ∃ tyName, input = ChatInput.other tyName) ∧
    (∀ tyName, input = ChatInput.other tyName →
      ChatQuery.process embed_chat generate outs st input =
        Except.error (PluginError.typeError (chatTypeErrorMsg tyName), st)) := by
  constructor
  · cases input <;> simp [ChatQuery.process]
  · intro tyName hty
    subst hty
    rfl

theorem ChatQuery.process_type_error_exactly_witness :
    ChatQuery.process (fun _ => (0, 0)) (fun _ _ => ⟨[], "", 0⟩) []
        ⟨[⟨"user", "hi"⟩], 3⟩ (ChatInput.other ("int")) =
      Except.error (PluginError.typeError (chatTypeErrorMsg ("int")),
        ⟨[⟨"user", "hi"⟩], 3⟩) :=
  (ChatQuery.process_type_error_exactly (fun _ => (0, 0))
      (fun _ _ => ⟨[], "", 0⟩) [] ⟨[⟨"user", "hi"⟩], 3⟩
      (ChatInput.other ("int"))).2 ("int") rfl
